import Mathlib

/-!
Shallow embedding of the reverse-tunnel routing core of the repository
(`lib/reversetunnel/peer.go` and `lib/reversetunnel/localsite.go`).

Times (`time.Time`, heartbeats) are modelled as `Int` (nanoseconds since the
epoch); `time.Time.After` is strict `>` and `time.Time.Sub` is integer
subtraction, matching Go's semantics on the int64 monotonic/wall clock.
Go maps are modelled as association lists `List (String × ClusterPeer)`; one
list fixes one iteration order of the Go map, so universally quantified
statements over lists cover every iteration order the Go runtime may choose.
Fallible collaborators (network dials, SSH sessions, constructors) are
modelled as `Except` values supplied through an environment record, and the
side effects a call performs (closes, cache lookups, dials, subsystem
requests) are recorded as an event trace in chronological order.
-/

namespace Teleport

/-- Modelled from the spec: the constant `RemoteSiteStatusOffline` is defined
elsewhere in the repository (not under the staged sources); the spec fixes the
`GetStatus` range to the strings "online"/"offline". -/
def RemoteSiteStatusOffline : String := "offline"

/-- Modelled from the spec: the constant `RemoteSiteStatusOnline`, the other
member of the `GetStatus` range. -/
def RemoteSiteStatusOnline : String := "online"

/-- Errors produced by the `trace` package as used in `peer.go`: `pickPeer`
fails with `trace.NotFound`, and `trace.Wrap` propagates an error unchanged
for our purposes (wrapping only adds a stack trace). -/
inductive TraceError where
  | notFound (msg : String)
deriving DecidableEq, Repr

/-- `services.TunnelConnection` as consumed read-only by `peer.go`:
name, cluster name, proxy address and last-heartbeat timestamp. -/
structure TunnelConnection where
  name : String
  clusterName : String
  proxyAddr : String
  lastHeartbeat : Int
deriving DecidableEq, Repr

/-- `clusterPeer` (peer.go): one remote proxy replica reachable through one
tunnel connection. The `clt` and `accessPoint` handles are opaque
collaborators; they are modelled as identifiers so that frame properties
("the client is unchanged") are expressible. The `log` and `srv` fields carry
no behaviour relevant to the claims and are omitted. -/
structure ClusterPeer where
  connInfo : TunnelConnection
  clt : Nat
  accessPoint : Nat
deriving DecidableEq, Repr

/-- `clusterPeers` (peer.go): a cluster name plus a map from connection name
to peer, modelled as an association list (one Go-map iteration order). -/
structure ClusterPeers where
  clusterName : String
  peers : List (String × ClusterPeer)
deriving DecidableEq, Repr

/-- Heartbeat projection used throughout `pickPeer` reasoning. -/
def hb (p : ClusterPeer) : Int := p.connInfo.lastHeartbeat

/-- One iteration of the `pickPeer` loop body:
`if currentPeer == nil || peer.connInfo.GetLastHeartbeat().After(currentPeer.connInfo.GetLastHeartbeat()) { currentPeer = peer }`. -/
def stepPeer (cur : Option ClusterPeer) (peer : ClusterPeer) : Option ClusterPeer :=
  match cur with
  | none => some peer
  | some c => some (if hb peer > hb c then peer else c)

/-- The `for _, peer := range p.peers` loop of `pickPeer`, folded over one
iteration order of the map. -/
def pickLoop (cur : Option ClusterPeer) : List (String × ClusterPeer) → Option ClusterPeer
  | [] => cur
  | kv :: rest => pickLoop (stepPeer cur kv.2) rest

/-- `clusterPeers.pickPeer` (peer.go:49-60): scan for the freshest heartbeat;
`trace.NotFound` when the map is empty. The message string is exactly the
source's (its `%v` placeholder is left unfilled by the source as well). -/
def pickPeer (p : ClusterPeers) : Except TraceError ClusterPeer :=
  match pickLoop none p.peers with
  | none => .error (.notFound "no active peers found for %v")
  | some peer => .ok peer

/-- Go map indexing `p.peers[key]` on the association-list model. -/
def listLookup (key : String) : List (String × ClusterPeer) → Option ClusterPeer
  | [] => none
  | kv :: rest => if kv.1 = key then some kv.2 else listLookup key rest

/-- `clusterPeers.updatePeer` (peer.go:62-69): look the peer up by the
connection's name; absent returns `false` untouched, present replaces only
that peer's `connInfo` and returns `true`. -/
def updatePeer (p : ClusterPeers) (conn : TunnelConnection) : Bool × ClusterPeers :=
  match listLookup conn.name p.peers with
  | none => (false, p)
  | some _ =>
      (true,
       { p with
         peers := p.peers.map fun kv =>
           if kv.1 = conn.name then (kv.1, { kv.2 with connInfo := conn }) else kv })

/-- `clusterPeers.removePeer` (peer.go:75-77): `delete(p.peers, connInfo.GetName())`. -/
def removePeer (p : ClusterPeers) (connInfo : TunnelConnection) : ClusterPeers :=
  { p with peers := p.peers.filter fun kv => kv.1 ≠ connInfo.name }

/-- `clusterPeer.GetStatus` (peer.go:186-192): offline iff
`time.Now().Sub(lastHeartbeat)` strictly exceeds the threshold
(`defaults.ReverseTunnelOfflineThreshold`, passed explicitly here). -/
def clusterPeerGetStatus (s : ClusterPeer) (now threshold : Int) : String :=
  if now - s.connInfo.lastHeartbeat > threshold then RemoteSiteStatusOffline
  else RemoteSiteStatusOnline

/-- `clusterPeer.GetLastConnected` (peer.go:198-200). -/
def clusterPeerGetLastConnected (s : ClusterPeer) : Int :=
  s.connInfo.lastHeartbeat

/-- `clusterPeers.GetStatus` (peer.go:99-105): degrade a pick failure to
"offline" instead of propagating it. -/
def clusterPeersGetStatus (p : ClusterPeers) (now threshold : Int) : String :=
  match pickPeer p with
  | .error _ => RemoteSiteStatusOffline
  | .ok peer => clusterPeerGetStatus peer now threshold

/-- The zero value `time.Time{}` under the Int time model. -/
def zeroTime : Int := 0

/-- `clusterPeers.GetLastConnected` (peer.go:111-117): zero time on a pick
failure, otherwise the chosen peer's heartbeat. -/
def clusterPeersGetLastConnected (p : ClusterPeers) : Int :=
  match pickPeer p with
  | .error _ => zeroTime
  | .ok peer => clusterPeerGetLastConnected peer

/-- Observable side effects of `clusterPeer.Dial`, recorded in chronological
order. Go's `defer` statements run in last-in-first-out order when the
function returns, on every return path, so a registered `se.Close()` fires
before the matching `client.Close()`. -/
inductive DialEvent where
  | closeClient
  | closeSession
  | requestSubsystem (s : String)
deriving DecidableEq, Repr

/-- Outcomes of the fallible collaborators `clusterPeer.Dial` calls, in call
order: `proxy.DialWithDeadline`, `client.NewSession`, `se.StdinPipe`,
`se.StdoutPipe`, `se.RequestSubsystem`. -/
structure DialEnv where
  dialWithDeadline : Except String Unit
  newSession : Except String Unit
  stdinPipe : Except String Unit
  stdoutPipe : Except String Unit
  requestOutcome : Except String Unit
deriving Repr

/-- The value `utils.NewPipeNetConn(reader, writer, se, from, to)` returns:
a net.Conn adapter carrying the from/to addressing metadata. -/
structure PipeNetConn where
  srcAddr : String
  dstAddr : String
deriving DecidableEq, Repr

/-- The `fmt.Sprintf("proxy:%v@%v", to, s.connInfo.GetClusterName())` string
of peer.go:231 (`%v` on a net.Addr prints its `String()`). -/
def subsystemRequestString (toAddr clusterName : String) : String :=
  "proxy:" ++ toAddr ++ "@" ++ clusterName

/-- `clusterPeer.Dial` (peer.go:205-242). Each step consults the environment;
the trace lists the events in the order they happen at run time. Both
`defer client.Close()` and `defer se.Close()` are unconditional in the
source, so once registered they fire on the success return as well, after
the `utils.NewPipeNetConn` value has been computed. Errors are returned
through `trace.Wrap`, which leaves the message unchanged. -/
def clusterPeerDial (s : ClusterPeer) (fromAddr toAddr : String) (env : DialEnv) :
    Except String PipeNetConn × List DialEvent :=
  match env.dialWithDeadline with
  | .error e => (.error e, [])
  | .ok _ =>
    match env.newSession with
    | .error e => (.error e, [DialEvent.closeClient])
    | .ok _ =>
      match env.stdinPipe with
      | .error e => (.error e, [DialEvent.closeSession, DialEvent.closeClient])
      | .ok _ =>
        match env.stdoutPipe with
        | .error e => (.error e, [DialEvent.closeSession, DialEvent.closeClient])
        | .ok _ =>
          let req := subsystemRequestString toAddr s.connInfo.clusterName
          match env.requestOutcome with
          | .error e =>
              (.error e,
               [DialEvent.requestSubsystem req, DialEvent.closeSession,
                DialEvent.closeClient])
          | .ok _ =>
              (.ok { srcAddr := fromAddr, dstAddr := toAddr },
               [DialEvent.requestSubsystem req, DialEvent.closeSession,
                DialEvent.closeClient])

/-- The subsystem-request strings a trace carries, in order. -/
def subsystemRequests (tr : List DialEvent) : List String :=
  tr.filterMap fun e =>
    match e with
    | DialEvent.requestSubsystem s => some s
    | _ => none

/-- Observable side effects of `localSite.Dial`, in chronological order. -/
inductive LocalDialEvent where
  | cacheLookup (addr : String)
  | forwardServerNew
  | forwardServerDial (addr : String)
  | directNetDial (addr : String)
deriving DecidableEq, Repr

/-- Outcomes of the collaborators `localSite.Dial` calls:
`hostCertificateCache.get`, `forward.New`, `remoteServer.Dial`, `net.Dial`.
Result handles (certificate, forwarder, connection) are opaque identifiers. -/
structure LocalDialEnv where
  cacheGet : Except String Nat
  forwardNew : Except String Nat
  forwardDial : Except String Nat
  netDial : Except String Nat
deriving Repr

/-- The branch structure of `localSite.Dial` (localsite.go:112-143),
parameterised on the `recordingProxy` flag the body reads: the recording
branch looks the host certificate up in the cache, builds a fresh forwarding
server and dials through it; the other branch is a single direct `net.Dial`. -/
def localSiteDialWith (recordingProxy : Bool) (toAddr : String) (env : LocalDialEnv) :
    Except String Nat × List LocalDialEvent :=
  if recordingProxy then
    match env.cacheGet with
    | .error e => (.error e, [LocalDialEvent.cacheLookup toAddr])
    | .ok _ =>
      match env.forwardNew with
      | .error e =>
          (.error e,
           [LocalDialEvent.cacheLookup toAddr, LocalDialEvent.forwardServerNew])
      | .ok _ =>
        match env.forwardDial with
        | .error e =>
            (.error e,
             [LocalDialEvent.cacheLookup toAddr, LocalDialEvent.forwardServerNew,
              LocalDialEvent.forwardServerDial toAddr])
        | .ok c =>
            (.ok c,
             [LocalDialEvent.cacheLookup toAddr, LocalDialEvent.forwardServerNew,
              LocalDialEvent.forwardServerDial toAddr])
  else
    (env.netDial, [LocalDialEvent.directNetDial toAddr])

/-- `localSite.Dial` as written: the source sets `recordingProxy := true`
before the branch (localsite.go:118), so every call takes the recording
branch. -/
def localSiteDial (toAddr : String) (env : LocalDialEnv) :
    Except String Nat × List LocalDialEvent :=
  localSiteDialWith true toAddr env

/-- Number of host-certificate-cache lookups in a trace. -/
def countCacheLookups (tr : List LocalDialEvent) : Nat :=
  (tr.filter fun e =>
    match e with
    | LocalDialEvent.cacheLookup _ => true
    | _ => false).length

/-- Number of direct network dials in a trace. -/
def countDirectDials (tr : List LocalDialEvent) : Nat :=
  (tr.filter fun e =>
    match e with
    | LocalDialEvent.directNetDial _ => true
    | _ => false).length

/-- The Go zero value a nil proxy dialer stands for when `NewProxyDialer`
fails; `newClusterPeer` keeps using it regardless. -/
def goNilDialer : Nat := 0

/-- Outcomes of the collaborators `newClusterPeer` calls:
`NewProxyDialer` (a dialer handle), `auth.NewClient` applied to the dialer
it was handed, and `srv.newAccessPoint` applied to the client. -/
structure CtorEnv where
  NewProxyDialer : Except String Nat
  NewClient : Nat → Except String Nat
  newAccessPoint : Nat → Except String Nat

/-- `newClusterPeer` (peer.go:131-162). The source binds
`dialer, err := NewProxyDialer(...)` and then immediately rebinds
`clt, err := auth.NewClient(...)` without testing the first `err`, so the
dialer error is discarded: the construction continues with whatever dialer
value came back (nil on failure) and only the client and access-point errors
are checked. -/
def newClusterPeer (connInfo : TunnelConnection) (env : CtorEnv) :
    Except String ClusterPeer :=
  let dialer : Nat :=
    match env.NewProxyDialer with
    | .ok d => d
    | .error _ => goNilDialer
  match env.NewClient dialer with
  | .error e => .error e
  | .ok c =>
    match env.newAccessPoint c with
    | .error e => .error e
    | .ok a => .ok { connInfo := connInfo, clt := c, accessPoint := a }

/-! Concrete instances used for evidence and witnesses: two peers of the
cluster "prod", with heartbeats 100 and 105 (the spec's scenario). -/

/-- Tunnel connection of peer A (heartbeat 100). -/
def connA : TunnelConnection :=
  { name := "connA", clusterName := "prod", proxyAddr := "peerA:3024",
    lastHeartbeat := 100 }

/-- Tunnel connection of peer B (heartbeat 105). -/
def connB : TunnelConnection :=
  { name := "connB", clusterName := "prod", proxyAddr := "peerB:3024",
    lastHeartbeat := 105 }

/-- A fresher heartbeat for connection A, used to exercise `updatePeer`. -/
def connA2 : TunnelConnection :=
  { name := "connA", clusterName := "prod", proxyAddr := "peerA:3024",
    lastHeartbeat := 200 }

/-- Registered peer for `connA`. -/
def peerA : ClusterPeer := { connInfo := connA, clt := 1, accessPoint := 2 }

/-- Registered peer for `connB`. -/
def peerB : ClusterPeer := { connInfo := connB, clt := 3, accessPoint := 4 }

/-- A two-peer collection for cluster "prod". -/
def prodPeers : ClusterPeers :=
  { clusterName := "prod", peers := [("connA", peerA), ("connB", peerB)] }

/-- An empty peer collection. -/
def emptyPeers : ClusterPeers := { clusterName := "prod", peers := [] }

/-- A `clusterPeer.Dial` environment in which every collaborator succeeds. -/
def allOkDialEnv : DialEnv :=
  { dialWithDeadline := .ok (), newSession := .ok (), stdinPipe := .ok (),
    stdoutPipe := .ok (), requestOutcome := .ok () }

/-! Helper lemmas about the `pickPeer` scan. -/

/-- Running the scan from a current candidate yields a result at least as
fresh as the candidate and as every scanned peer, and the result is the
candidate or one of the scanned peers. -/
theorem pickLoop_some_spec :
    ∀ (l : List (String × ClusterPeer)) (c : ClusterPeer),
      ∃ r, pickLoop (some c) l = some r ∧ hb c ≤ hb r ∧
        (∀ kv ∈ l, hb kv.2 ≤ hb r) ∧ (r = c ∨ ∃ kv ∈ l, r = kv.2)
  | [], c => ⟨c, rfl, le_refl _, by simp, Or.inl rfl⟩
  | kv :: rest, c => by
      have hstep : pickLoop (some c) (kv :: rest) =
          pickLoop (some (if hb kv.2 > hb c then kv.2 else c)) rest := rfl
      by_cases h : hb kv.2 > hb c
      · obtain ⟨r, hr, hcr, hall, horig⟩ := pickLoop_some_spec rest kv.2
        refine ⟨r, ?_, ?_, ?_, ?_⟩
        · rw [hstep, if_pos h]; exact hr
        · exact le_trans (le_of_lt h) hcr
        · intro kv' hkv'
          rcases List.mem_cons.mp hkv' with he | ht
          · rw [he]; exact hcr
          · exact hall kv' ht
        · rcases horig with he | ⟨kv', hkv', he⟩
          · exact Or.inr ⟨kv, List.mem_cons_self kv rest, he⟩
          · exact Or.inr ⟨kv', List.mem_cons_of_mem kv hkv', he⟩
      · obtain ⟨r, hr, hcr, hall, horig⟩ := pickLoop_some_spec rest c
        refine ⟨r, ?_, ?_, ?_, ?_⟩
        · rw [hstep, if_neg h]; exact hr
        · exact hcr
        · intro kv' hkv'
          rcases List.mem_cons.mp hkv' with he | ht
          · rw [he]; exact le_trans (le_of_not_lt h) hcr
          · exact hall kv' ht
        · rcases horig with he | ⟨kv', hkv', he⟩
          · exact Or.inl he
          · exact Or.inr ⟨kv', List.mem_cons_of_mem kv hkv', he⟩

/-- The scan only ever returns the starting candidate or a scanned peer. -/
theorem pickLoop_mem :
    ∀ (l : List (String × ClusterPeer)) (cur : Option ClusterPeer) (r : ClusterPeer),
      pickLoop cur l = some r → cur = some r ∨ ∃ kv ∈ l, kv.2 = r
  | [], _, _ => fun h => Or.inl h
  | kv :: rest, cur, r => by
      intro h
      rcases pickLoop_mem rest (stepPeer cur kv.2) r h with hc | ⟨kv', hkv', he⟩
      · cases cur with
        | none =>
            refine Or.inr ⟨kv, List.mem_cons_self kv rest, ?_⟩
            exact Option.some.inj hc
        | some c =>
            have hif : (if hb kv.2 > hb c then kv.2 else c) = r := Option.some.inj hc
            by_cases hlt : hb kv.2 > hb c
            · refine Or.inr ⟨kv, List.mem_cons_self kv rest, ?_⟩
              rw [← hif, if_pos hlt]
            · left
              rw [← hif, if_neg hlt]
      · exact Or.inr ⟨kv', List.mem_cons_of_mem kv hkv', he⟩

/-- Every peer `pickPeer` returns is registered in the map. -/
theorem pickPeer_mem (p : ClusterPeers) (r : ClusterPeer)
    (h : pickPeer p = .ok r) : ∃ kv ∈ p.peers, kv.2 = r := by
  have hl : pickLoop none p.peers = some r := by
    unfold pickPeer at h
    cases hpl : pickLoop none p.peers with
    | none => rw [hpl] at h; exact absurd h (by simp)
    | some x =>
        rw [hpl] at h
        have : x = r := by
          have := h
          injection this
        rw [this]
  rcases pickLoop_mem p.peers none r hl with hc | hm
  · exact absurd hc (by simp)
  · exact hm

/-- Looking up the updated key after an `updatePeer`-style map sees the
updated value. -/
theorem listLookup_map_update (key : String) (g : ClusterPeer → ClusterPeer) :
    ∀ l : List (String × ClusterPeer),
      listLookup key (l.map fun kv => if kv.1 = key then (kv.1, g kv.2) else kv) =
        (listLookup key l).map g
  | [] => rfl
  | kv :: rest => by
      by_cases h : kv.1 = key
      · simp [listLookup, h]
      · simp [listLookup, h, listLookup_map_update key g rest]

/-- Looking up any other key after an `updatePeer`-style map is unchanged. -/
theorem listLookup_map_frame (key other : String) (hne : other ≠ key)
    (g : ClusterPeer → ClusterPeer) :
    ∀ l : List (String × ClusterPeer),
      listLookup other (l.map fun kv => if kv.1 = key then (kv.1, g kv.2) else kv) =
        listLookup other l
  | [] => rfl
  | kv :: rest => by
      by_cases h : kv.1 = key
      · simp [listLookup, h, Ne.symm hne, listLookup_map_frame key other hne g rest]
      · simp [listLookup, h, listLookup_map_frame key other hne g rest]

/-- A key that looks up to nothing is the key of no entry. -/
theorem listLookup_none_all (key : String) :
    ∀ l : List (String × ClusterPeer),
      listLookup key l = none → ∀ kv ∈ l, kv.1 ≠ key
  | [] => by intro _ kv hkv; cases hkv
  | kv :: rest => by
      intro h kv' hkv'
      simp only [listLookup] at h
      by_cases hh : kv.1 = key
      · rw [if_pos hh] at h; exact absurd h (by simp)
      · rw [if_neg hh] at h
        rcases List.mem_cons.mp hkv' with he | ht
        · rw [he]; exact hh
        · exact listLookup_none_all key rest h kv' ht

/-! The claims. -/

/-- C2: for every non-empty peer map, `clusterPeers.pickPeer` succeeds and
returns a peer whose `connInfo.LastHeartbeat` is greater than or equal to
that of every registered peer (any one of the maximal peers when several
share the maximum). -/
theorem pickPeer_freshest (p : ClusterPeers) (hne : p.peers ≠ []) :
    ∃ r, pickPeer p = .ok r ∧ ∀ kv ∈ p.peers, hb kv.2 ≤ hb r := by
  match hl : p.peers with
  | [] => exact absurd hl hne
  | kv :: rest =>
    obtain ⟨r, hr, hcr, hall, _⟩ := pickLoop_some_spec rest kv.2
    refine ⟨r, ?_, ?_⟩
    · have hstep : pickLoop none (kv :: rest) = pickLoop (some kv.2) rest := rfl
      unfold pickPeer
      rw [hl, hstep, hr]
    · intro kv' hkv'
      rcases List.mem_cons.mp hkv' with he | ht
      · rw [he]; exact hcr
      · exact hall kv' ht

/-- Witness for C2: on the two-peer "prod" collection the pick succeeds and
dominates every registered heartbeat. -/
theorem pickPeer_freshest_witness :
    ∃ r, pickPeer prodPeers = .ok r ∧ ∀ kv ∈ prodPeers.peers, hb kv.2 ≤ hb r :=
  pickPeer_freshest prodPeers (by decide)

/-- C5: on an empty peer map `pickPeer` fails with the `trace.NotFound`
error, and `clusterPeers.GetStatus` returns the string "offline" for every
clock and threshold instead of propagating the error (it is a total function
into `String`, so it never fails). -/
theorem pickPeer_empty_getStatus_offline (p : ClusterPeers) (h : p.peers = []) :
    pickPeer p = .error (TraceError.notFound "no active peers found for %v") ∧
    ∀ now threshold : Int,
      clusterPeersGetStatus p now threshold = RemoteSiteStatusOffline := by
  have hp : pickPeer p =
      .error (TraceError.notFound "no active peers found for %v") := by
    unfold pickPeer
    rw [h]
    rfl
  exact ⟨hp, fun now threshold => by simp [clusterPeersGetStatus, hp]⟩

/-- Witness for C5: the empty "prod" collection. -/
theorem pickPeer_empty_getStatus_offline_witness :
    pickPeer emptyPeers =
      .error (TraceError.notFound "no active peers found for %v") ∧
    ∀ now threshold : Int,
      clusterPeersGetStatus emptyPeers now threshold = RemoteSiteStatusOffline :=
  pickPeer_empty_getStatus_offline emptyPeers rfl

/-- C6: `clusterPeer.GetStatus` returns "offline" exactly when
`now - connInfo.LastHeartbeat` strictly exceeds the threshold, "online"
otherwise — in particular "online" at an elapsed time equal to the
threshold — and `GetLastConnected` returns `connInfo.LastHeartbeat`. -/
theorem clusterPeerGetStatus_threshold (s : ClusterPeer) (now threshold : Int) :
    (clusterPeerGetStatus s now threshold = RemoteSiteStatusOffline ↔
      now - s.connInfo.lastHeartbeat > threshold) ∧
    (now - s.connInfo.lastHeartbeat = threshold →
      clusterPeerGetStatus s now threshold = RemoteSiteStatusOnline) ∧
    clusterPeerGetLastConnected s = s.connInfo.lastHeartbeat := by
  refine ⟨?_, ?_, rfl⟩
  · by_cases h : now - s.connInfo.lastHeartbeat > threshold
    · unfold clusterPeerGetStatus
      rw [if_pos h]
      exact iff_of_true rfl h
    · unfold clusterPeerGetStatus
      rw [if_neg h]
      exact iff_of_false (by decide) h
  · intro heq
    have h : ¬ now - s.connInfo.lastHeartbeat > threshold := by omega
    unfold clusterPeerGetStatus
    rw [if_neg h]

/-- Witness for C6: at elapsed time exactly equal to the threshold the
status is "online". -/
theorem clusterPeerGetStatus_threshold_witness :
    clusterPeerGetStatus peerA 200 100 = RemoteSiteStatusOnline :=
  (clusterPeerGetStatus_threshold peerA 200 100).2.1 (by decide)

/-- C9: on an empty peer map `clusterPeers.GetLastConnected` does not
propagate the pick error: it returns the zero time value. -/
theorem getLastConnected_empty_zero (p : ClusterPeers) (h : p.peers = []) :
    clusterPeersGetLastConnected p = zeroTime := by
  unfold clusterPeersGetLastConnected pickPeer
  rw [h]
  rfl

/-- Witness for C9: the empty "prod" collection. -/
theorem getLastConnected_empty_zero_witness :
    clusterPeersGetLastConnected emptyPeers = zeroTime :=
  getLastConnected_empty_zero emptyPeers rfl

/-- C7: `updatePeer` with an unknown connection name returns `false` and
leaves the collection completely unchanged; with a known name it returns
`true`, the entry under that name keeps its identity (`clt`, `accessPoint`)
and only its `connInfo` becomes the new connection, every other name looks
up unchanged, and the cluster name is untouched. -/
theorem updatePeer_frame (p : ClusterPeers) (conn : TunnelConnection) :
    (listLookup conn.name p.peers = none → updatePeer p conn = (false, p)) ∧
    ∀ q, listLookup conn.name p.peers = some q →
      (updatePeer p conn).1 = true ∧
      (updatePeer p conn).2.clusterName = p.clusterName ∧
      listLookup conn.name (updatePeer p conn).2.peers =
        some { q with connInfo := conn } ∧
      ∀ k, k ≠ conn.name →
        listLookup k (updatePeer p conn).2.peers = listLookup k p.peers := by
  constructor
  · intro h
    unfold updatePeer
    rw [h]
  · intro q hq
    have hupd : updatePeer p conn =
        (true,
         { p with
           peers := p.peers.map fun kv =>
             if kv.1 = conn.name then (kv.1, { kv.2 with connInfo := conn })
             else kv }) := by
      unfold updatePeer
      rw [hq]
    rw [hupd]
    refine ⟨rfl, rfl, ?_, ?_⟩
    · rw [listLookup_map_update conn.name (fun q => { q with connInfo := conn })
        p.peers, hq]
      rfl
    · intro k hk
      exact listLookup_map_frame conn.name k hk
        (fun q => { q with connInfo := conn }) p.peers

/-- Witness for C7: refreshing connection "connA" of the two-peer collection
returns `true`, keeps peer identity and the other entry, and replaces only
`connInfo`. -/
theorem updatePeer_frame_witness :
    (updatePeer prodPeers connA2).1 = true ∧
    (updatePeer prodPeers connA2).2.clusterName = prodPeers.clusterName ∧
    listLookup connA2.name (updatePeer prodPeers connA2).2.peers =
      some { peerA with connInfo := connA2 } ∧
    ∀ k, k ≠ connA2.name →
      listLookup k (updatePeer prodPeers connA2).2.peers =
        listLookup k prodPeers.peers :=
  (updatePeer_frame prodPeers connA2).2 peerA rfl

/-- C8: after `removePeer conn`, `pickPeer` only ever returns a peer that was
registered under a name other than `conn`'s; `removePeer` with a name not in
the map leaves the collection unchanged; and `removePeer` is idempotent. -/
theorem removePeer_sound (p : ClusterPeers) (conn : TunnelConnection) :
    (∀ r, pickPeer (removePeer p conn) = .ok r →
       ∃ k, (k, r) ∈ p.peers ∧ k ≠ conn.name) ∧
    (listLookup conn.name p.peers = none → removePeer p conn = p) ∧
    removePeer (removePeer p conn) conn = removePeer p conn := by
  refine ⟨?_, ?_, ?_⟩
  · intro r hr
    obtain ⟨kv, hmem, hkv⟩ := pickPeer_mem (removePeer p conn) r hr
    obtain ⟨k, v⟩ := kv
    have hmem' : (k, v) ∈ p.peers.filter fun kv => kv.1 ≠ conn.name := hmem
    have hsplit := List.mem_filter.mp hmem'
    refine ⟨k, ?_, ?_⟩
    · rw [← hkv]; exact hsplit.1
    · simpa using hsplit.2
  · intro h
    have hall := listLookup_none_all conn.name p.peers h
    unfold removePeer
    have : (p.peers.filter fun kv => kv.1 ≠ conn.name) = p.peers :=
      List.filter_eq_self.mpr fun kv hkv => by simpa using hall kv hkv
    rw [this]
  · unfold removePeer
    have : ((p.peers.filter fun kv => kv.1 ≠ conn.name).filter
        fun kv => kv.1 ≠ conn.name) = p.peers.filter fun kv => kv.1 ≠ conn.name :=
      List.filter_eq_self.mpr fun kv hkv => (List.mem_filter.mp hkv).2
    rw [this]

/-- Witness for C8: removing "connB" from the two-peer collection; the pick
afterwards returns `peerA`, registered under a different name, and removal
is idempotent. -/
theorem removePeer_sound_witness :
    (∃ k, (k, peerA) ∈ prodPeers.peers ∧ k ≠ connB.name) ∧
    removePeer (removePeer prodPeers connB) connB = removePeer prodPeers connB :=
  ⟨(removePeer_sound prodPeers connB).1 peerA rfl,
   (removePeer_sound prodPeers connB).2.2⟩

/-- C1 evidence: when every collaborator succeeds, `clusterPeer.Dial` still
runs the deferred `se.Close()` and `client.Close()` on the success return
(Go defers are unconditional), so the session and the SSH client are closed
before the caller receives the returned `PipeNetConn`. The claim says the
success path closes neither. -/
theorem clusterPeerDial_success_closes_resources :
    clusterPeerDial peerB "1.2.3.4:61000" "10.0.0.5:22" allOkDialEnv =
      (.ok { srcAddr := "1.2.3.4:61000", dstAddr := "10.0.0.5:22" },
       [DialEvent.requestSubsystem "proxy:10.0.0.5:22@prod",
        DialEvent.closeSession, DialEvent.closeClient]) := rfl

/-- C3: `localSite.Dial`'s recording branch performs exactly one
host-certificate-cache lookup and zero direct network dials, its
non-recording branch zero lookups and exactly one direct dial; the function
as written always runs the recording branch (`recordingProxy := true`). -/
theorem localSiteDial_effect_counts (recordingProxy : Bool) (toAddr : String)
    (env : LocalDialEnv) :
    localSiteDial toAddr env = localSiteDialWith true toAddr env ∧
    countCacheLookups (localSiteDialWith recordingProxy toAddr env).2 =
      (if recordingProxy then 1 else 0) ∧
    countDirectDials (localSiteDialWith recordingProxy toAddr env).2 =
      (if recordingProxy then 0 else 1) := by
  obtain ⟨cg, fn, fd, nd⟩ := env
  refine ⟨rfl, ?_, ?_⟩ <;>
    cases recordingProxy <;> cases cg <;> cases fn <;> cases fd <;> rfl

/-- C4: on every run of `clusterPeer.Dial` that reaches the subsystem
request (outbound dial, session, stdin and stdout pipes all succeeded), the
one subsystem request sent is exactly
`"proxy:" ++ destination ++ "@" ++ cluster name`. -/
theorem clusterPeerDial_subsystem_format (s : ClusterPeer)
    (fromAddr toAddr : String) (env : DialEnv)
    (h1 : env.dialWithDeadline = .ok ()) (h2 : env.newSession = .ok ())
    (h3 : env.stdinPipe = .ok ()) (h4 : env.stdoutPipe = .ok ()) :
    subsystemRequests (clusterPeerDial s fromAddr toAddr env).2 =
      ["proxy:" ++ toAddr ++ "@" ++ s.connInfo.clusterName] := by
  unfold clusterPeerDial
  rw [h1, h2, h3, h4]
  cases h5 : env.requestOutcome <;>
    simp [subsystemRequests, subsystemRequestString]

/-- Witness for C4: dialing target 10.0.0.5:22 through a peer of cluster
"prod" requests exactly the subsystem "proxy:10.0.0.5:22@prod". -/
theorem clusterPeerDial_subsystem_format_witness :
    subsystemRequests
        (clusterPeerDial peerA "1.2.3.4:61000" "10.0.0.5:22" allOkDialEnv).2 =
      ["proxy:" ++ "10.0.0.5:22" ++ "@" ++ peerA.connInfo.clusterName] :=
  clusterPeerDial_subsystem_format peerA "1.2.3.4:61000" "10.0.0.5:22"
    allOkDialEnv rfl rfl rfl rfl

/-- C10: `newClusterPeer` never checks the `NewProxyDialer` error — when the
proxy-dialer construction fails it continues with the nil dialer, and as
long as `auth.NewClient` and `newAccessPoint` succeed the construction
reports success. -/
theorem newClusterPeer_discards_dialer_error (connInfo : TunnelConnection)
    (env : CtorEnv) (msg : String) (c a : Nat)
    (hd : env.NewProxyDialer = .error msg)
    (hc : env.NewClient goNilDialer = .ok c)
    (ha : env.newAccessPoint c = .ok a) :
    newClusterPeer connInfo env =
      .ok { connInfo := connInfo, clt := c, accessPoint := a } := by
  unfold newClusterPeer
  rw [hd]
  show (match env.NewClient goNilDialer with
    | .error e => Except.error e
    | .ok c =>
      match env.newAccessPoint c with
      | .error e => Except.error e
      | .ok a =>
          Except.ok ({ connInfo := connInfo, clt := c, accessPoint := a } :
            ClusterPeer)) =
    Except.ok ({ connInfo := connInfo, clt := c, accessPoint := a } : ClusterPeer)
  rw [hc]
  show (match env.newAccessPoint c with
    | .error e => Except.error e
    | .ok a =>
        Except.ok ({ connInfo := connInfo, clt := c, accessPoint := a } :
          ClusterPeer)) =
    Except.ok ({ connInfo := connInfo, clt := c, accessPoint := a } : ClusterPeer)
  rw [ha]

/-- A constructor environment whose proxy-dialer step fails while the later
steps succeed. -/
def failingCtorEnv : CtorEnv :=
  { NewProxyDialer := .error "proxy dialer construction failed",
    NewClient := fun _ => .ok 7,
    newAccessPoint := fun _ => .ok 9 }

/-- Witness for C10: with the failing proxy dialer the constructor still
returns a fully built peer. -/
theorem newClusterPeer_discards_dialer_error_witness :
    newClusterPeer connA failingCtorEnv =
      .ok { connInfo := connA, clt := 7, accessPoint := 9 } :=
  newClusterPeer_discards_dialer_error connA failingCtorEnv
    "proxy dialer construction failed" 7 9 rfl rfl rfl

end Teleport
